import Mathlib

/-!
Verification development for the booking-data pipeline in
`fetch_and_upload.py` (shape normalizer `normalize_json_to_df` /
`load_json_file`, feature engine `preprocess_df`, and the aggregation
loop of `main`).  The pandas data frame is modelled as an ordered list
of column names together with positional rows; pandas float semantics
(division by zero yielding signed infinities or NaN, comparisons with
NaN being false) are modelled by the `PFloat` type; `pd.to_datetime`
with `dayfirst=True` is modelled for slash-separated numeric date
strings.  Fallible steps return `Except String` mirroring exceptions
that abort the whole run.
-/

namespace DashPrep

/-- A JSON value as read from one source. -/
inductive Json where
  | null : Json
  | bool : Bool → Json
  | num : Int → Json
  | str : String → Json
  | arr : List Json → Json
  | obj : List (String × Json) → Json

/-- One flattened record: ordered column-name/value pairs. -/
abbrev Record := List (String × Json)

/-- A tabular fragment: the ordered records produced from one payload. -/
abbrev Fragment := List Record

/-- Dot-joined key prefixes used by `pd.json_normalize` when flattening
nested objects. -/
def joinKey (pfx k : String) : String :=
  if pfx = "" then k else pfx ++ "." ++ k

mutual

/-- Flattening of one JSON value under a key, as `pd.json_normalize`
does for nested mappings (lists and scalars are kept as values). -/
def flattenVal (key : String) : Json → List (String × Json)
  | Json.obj kvs => flattenObj key kvs
  | v => [(key, v)]

/-- Flattening of a mapping's entries under a key prefix. -/
def flattenObj (pfx : String) : List (String × Json) → List (String × Json)
  | [] => []
  | (k, v) :: rest => flattenVal (joinKey pfx k) v ++ flattenObj pfx rest

end

/-- The record `pd.json_normalize` builds from one element of its input
list.  The pipeline only ever feeds it mappings; a non-mapping element
is kept as a single anonymous-key pair. -/
def recordOf (j : Json) : Record :=
  flattenVal "" j

/-- The scan of `normalize_json_to_df` / `load_json_file`: collect the
mapping's values that are lists (`list_candidates`), then return the
first one that is non-empty with a mapping as first element. -/
def findRecList (vals : List Json) : Option (List Json) :=
  (vals.filterMap (fun v => match v with
    | Json.arr ys => some ys
    | _ => none)).find? (fun ys => match ys with
      | Json.obj _ :: _ => true
      | _ => false)

/-- `normalize_json_to_df` (the same logic as `load_json_file`): a list
becomes one record per element; a mapping is scanned for the first
non-empty list of mappings, else wrapped as a single record; any other
JSON value yields an empty frame. -/
def normalize_json_to_df : Json → Fragment
  | Json.arr xs => xs.map recordOf
  | Json.obj kvs =>
    match findRecList (kvs.map Prod.snd) with
    | some ys => ys.map recordOf
    | none => [recordOf (Json.obj kvs)]
  | _ => []

/-- Modelled from the spec: the spec's own description of the envelope
scan — the first value (in iteration order) that is a non-empty
sequence whose first element is a mapping. -/
def specFirstRecordList (vals : List Json) : Option Json :=
  vals.find? (fun v => match v with
    | Json.arr (Json.obj _ :: _) => true
    | _ => false)

/-- Column names of a fragment, in first-appearance order, as pandas
builds a frame from records. -/
def fragKeys (frag : Fragment) : List String :=
  ((frag.map (fun r => r.map Prod.fst)).flatten).dedup

/-- Pandas `DataFrame.empty`: true when the frame has no rows or no
columns. -/
def fragIsEmpty (frag : Fragment) : Bool :=
  frag.isEmpty || (fragKeys frag).isEmpty

/-- Exact rational division, computed on numerators and denominators
(definitionally equal to `a / b`, see `qdiv_eq_div`; division by zero
gives zero, though the pipeline never reaches that case). -/
def qdiv (a b : ℚ) : ℚ :=
  let n : Int := a.num * (b.den : Int)
  let d : Int := (a.den : Int) * b.num
  if d < 0 then mkRat (-n) (-d).toNat else mkRat n d.toNat

/-- Pandas float values: finite rationals, the signed infinities, NaN. -/
inductive PFloat where
  | fin : ℚ → PFloat
  | pinf : PFloat
  | ninf : PFloat
  | nan : PFloat
deriving DecidableEq

/-- Pandas/numpy float division, including division by zero producing
signed infinity or NaN instead of raising. -/
def PFloat.div : PFloat → PFloat → PFloat
  | PFloat.nan, _ => PFloat.nan
  | _, PFloat.nan => PFloat.nan
  | PFloat.fin a, PFloat.fin b =>
    if b = 0 then
      (if 0 < a then PFloat.pinf else if a < 0 then PFloat.ninf else PFloat.nan)
    else PFloat.fin (qdiv a b)
  | PFloat.fin _, PFloat.pinf => PFloat.fin 0
  | PFloat.fin _, PFloat.ninf => PFloat.fin 0
  | PFloat.pinf, PFloat.fin b => if b < 0 then PFloat.ninf else PFloat.pinf
  | PFloat.ninf, PFloat.fin b => if b < 0 then PFloat.pinf else PFloat.ninf
  | PFloat.pinf, _ => PFloat.nan
  | PFloat.ninf, _ => PFloat.nan

/-- IEEE-style ordering test: any comparison with NaN is false. -/
def PFloat.leB : PFloat → PFloat → Bool
  | PFloat.nan, _ => false
  | _, PFloat.nan => false
  | PFloat.ninf, _ => true
  | _, PFloat.ninf => false
  | PFloat.fin a, PFloat.fin b => decide (a ≤ b)
  | PFloat.fin _, PFloat.pinf => true
  | PFloat.pinf, PFloat.pinf => true
  | PFloat.pinf, PFloat.fin _ => false

/-- Whether a pandas float is finite. -/
def PFloat.isFinite : PFloat → Bool
  | PFloat.fin _ => true
  | _ => false

/-- A calendar date as parsed by `pd.to_datetime`. -/
structure SDate where
  day : Nat
  month : Nat
  year : Nat
deriving DecidableEq

/-- Proleptic-Gregorian leap-year test. -/
def isLeap (y : Nat) : Bool :=
  (y % 4 == 0) && (y % 100 != 0 || y % 400 == 0)

/-- Days in a month. -/
def daysInMonth (y m : Nat) : Nat :=
  if m = 2 then (if isLeap y then 29 else 28)
  else if m = 4 ∨ m = 6 ∨ m = 9 ∨ m = 11 then 30 else 31

/-- Validity of a day/month/year triple. -/
def validDMY (d m y : Nat) : Bool :=
  (1 ≤ m) && (m ≤ 12) && (1 ≤ d) && (d ≤ daysInMonth y m) && (1 ≤ y)

/-- `pd.to_datetime(..., dayfirst=True)` on a numeric triple `a/b/c`:
the day-first reading is preferred; if only the month-first reading is
a valid date, pandas falls back to it; otherwise parsing fails. -/
def parseTriple (a b c : Nat) : Option SDate :=
  if validDMY a b c then some ⟨a, b, c⟩
  else if validDMY b a c then some ⟨b, a, c⟩
  else none

/-- Split a character list on the slash separator. -/
def splitSlash : List Char → List (List Char)
  | [] => [[]]
  | c :: rest =>
    if c = '/' then [] :: splitSlash rest
    else
      match splitSlash rest with
      | g :: gs => (c :: g) :: gs
      | [] => [[c]]

/-- Read a non-empty all-digit character group as a number. -/
def digitsToNat (cs : List Char) : Option Nat :=
  if cs.isEmpty then none
  else cs.foldl (fun acc c => match acc with
    | none => none
    | some a => if c.isDigit then some (a * 10 + (c.toNat - 48)) else none) (some 0)

/-- Optional map over a list that fails as soon as one element fails,
as a whole-column pandas operation raises on the first bad value. -/
def mapOpt (g : α → Option β) : List α → Option (List β)
  | [] => some []
  | a :: l =>
    match g a, mapOpt g l with
    | some b, some bs => some (b :: bs)
    | _, _ => none

/-- `pd.to_datetime(s, dayfirst=True)` modelled for slash-separated
numeric date strings `d/m/y`; anything else fails to parse. -/
def parseDateDayfirst (s : String) : Option SDate :=
  match mapOpt digitsToNat (splitSlash s.toList) with
  | some [a, b, c] => parseTriple a b c
  | _ => none

/-- Serial day number (days since 1970-01-01) of a civil date, using
the standard days-from-civil computation. -/
def toSerial (dt : SDate) : Int :=
  let y : Int := if dt.month ≤ 2 then (dt.year : Int) - 1 else (dt.year : Int)
  let m : Int := (dt.month : Int)
  let d : Int := (dt.day : Int)
  let era : Int := Int.ediv y 400
  let yoe : Int := y - era * 400
  let mp : Int := if 2 < m then m - 3 else m + 9
  let doy : Int := Int.ediv (153 * mp + 2) 5 + d - 1
  let doe : Int := yoe * 365 + Int.ediv yoe 4 - Int.ediv yoe 100 + doy
  era * 146097 + doe - 719468

/-- English weekday name, as `Series.dt.day_name()` produces. -/
def dayName (dt : SDate) : String :=
  match (Int.emod (toSerial dt + 3) 7).toNat with
  | 0 => "Monday"
  | 1 => "Tuesday"
  | 2 => "Wednesday"
  | 3 => "Thursday"
  | 4 => "Friday"
  | 5 => "Saturday"
  | _ => "Sunday"

/-- One data-frame cell. -/
inductive Cell where
  | null : Cell
  | num : PFloat → Cell
  | str : String → Cell
  | bool : Bool → Cell
  | date : SDate → Cell
deriving DecidableEq

/-- One positional data-frame row. -/
abbrev Row := List Cell

/-- A pandas data frame: ordered column labels and positional rows. -/
structure Frame where
  cols : List String
  rows : List Row
deriving DecidableEq

/-- Position of a column label (first occurrence). -/
def colIdx (cols : List String) (name : String) : Option Nat :=
  match cols with
  | [] => none
  | c :: rest => if c = name then some 0 else (colIdx rest name).map (· + 1)

/-- Remove the first occurrence of a column label. -/
def eraseCol : List String → String → List String
  | [], _ => []
  | c :: rest, name => if c = name then rest else c :: eraseCol rest name

/-- Read the cell of a named column in one row. -/
def rowGet (f : Frame) (name : String) (r : Row) : Option Cell :=
  match colIdx f.cols name with
  | none => none
  | some i => r[i]?

/-- The cells of a named column, row by row. -/
def getColCells (f : Frame) (name : String) : List (Option Cell) :=
  f.rows.map (fun r => rowGet f name r)

/-- Column assignment `df[name] = vals`: replace in place when the
label exists, else append the column on the right. -/
def Frame.setColVals (f : Frame) (name : String) (vals : List Cell) : Frame :=
  match colIdx f.cols name with
  | some i => ⟨f.cols, List.zipWith (fun r v => r.set i v) f.rows vals⟩
  | none => ⟨f.cols ++ [name], List.zipWith (fun r v => r ++ [v]) f.rows vals⟩

/-- `df[name] = df[name].map g` for a fallible per-cell operation:
missing label is a KeyError, a bad cell aborts the whole column. -/
def Frame.mapCol (f : Frame) (name : String) (g : Cell → Option Cell) :
    Except String Frame :=
  match colIdx f.cols name with
  | none => Except.error ("KeyError: " ++ name)
  | some i =>
    match mapOpt (fun r => match r[i]? with
      | some c => (g c).map (fun c2 => r.set i c2)
      | none => none) f.rows with
    | none => Except.error ("transform failed: " ++ name)
    | some rs => Except.ok ⟨f.cols, rs⟩

/-- `df = df.drop(columns=name)`. -/
def Frame.dropCol (f : Frame) (name : String) : Except String Frame :=
  match colIdx f.cols name with
  | none => Except.error ("KeyError: " ++ name)
  | some i => Except.ok ⟨eraseCol f.cols name, f.rows.map (fun r => r.eraseIdx i)⟩

/-- `df[name] = <row-wise expression>` for a new derived column. -/
def Frame.deriveCol (f : Frame) (name : String)
    (g : Frame → Row → Option Cell) : Except String Frame :=
  match mapOpt (g f) f.rows with
  | none => Except.error ("derive failed: " ++ name)
  | some vals => Except.ok (f.setColVals name vals)

/-- `main_df['net_amount_stay'] / 100` on one cell. -/
def cellDiv100 : Cell → Option Cell
  | Cell.num x => some (Cell.num (PFloat.div x (PFloat.fin 100)))
  | Cell.null => some Cell.null
  | _ => none

/-- `pd.to_datetime(cell, dayfirst=True)` on one cell: strings are
parsed (failure is fatal), dates pass through, missing values stay
missing (NaT). -/
def cellParseDate : Cell → Option Cell
  | Cell.str s => (parseDateDayfirst s).map Cell.date
  | Cell.date d => some (Cell.date d)
  | Cell.null => some Cell.null
  | _ => none

/-- `(df[a] - df[b]).dt.days` on one row. -/
def rowDiffDays (a b : String) (f : Frame) (r : Row) : Option Cell :=
  match rowGet f a r, rowGet f b r with
  | some (Cell.date d1), some (Cell.date d2) =>
    some (Cell.num (PFloat.fin ((toSerial d1 - toSerial d2 : Int) : ℚ)))
  | some Cell.null, some _ => some Cell.null
  | some _, some Cell.null => some Cell.null
  | _, _ => none

/-- A `.dt` component accessor on one row. -/
def rowDatePart (name : String) (g : SDate → Cell) (f : Frame) (r : Row) :
    Option Cell :=
  match rowGet f name r with
  | some (Cell.date d) => some (g d)
  | some Cell.null => some Cell.null
  | _ => none

/-- `df[a] / df[b]` on one row, with pandas float division. -/
def rowDivide (a b : String) (f : Frame) (r : Row) : Option Cell :=
  match rowGet f a r, rowGet f b r with
  | some (Cell.num x), some (Cell.num y) => some (Cell.num (PFloat.div x y))
  | some Cell.null, some _ => some Cell.null
  | some _, some Cell.null => some Cell.null
  | _, _ => none

/-- Python scalar test `value == 0`, as the `no_net` loop performs on
`main_df.iloc[i, 5]` (note `False == 0` is true in Python). -/
def cellEqZero : Cell → Bool
  | Cell.num (PFloat.fin q) => decide (q = 0)
  | Cell.bool b => !b
  | _ => false

/-- Elementwise `series >= 0` (false for NaN/missing). -/
def cellGe0 : Cell → Bool
  | Cell.num x => PFloat.leB (PFloat.fin 0) x
  | _ => false

/-- Elementwise `series == 1` (note `True == 1` in Python). -/
def cellEqOne : Cell → Bool
  | Cell.num (PFloat.fin q) => decide (q = 1)
  | Cell.bool b => b
  | _ => false

/-- Elementwise `series <= 18000000` (false for NaN/missing). -/
def cellLe18M : Cell → Bool
  | Cell.num x => PFloat.leB x (PFloat.fin 18000000)
  | _ => false

/-- The `replace({'t': True, 'f': False})` mapping on one cell: the two
string tokens are mapped, every other value is left unchanged. -/
def replaceTF : Cell → Cell
  | Cell.str s => if s = "t" then Cell.bool true
                  else if s = "f" then Cell.bool false
                  else Cell.str s
  | c => c

/-- Steps 1–2 of `preprocess_df`: scale `net_amount_stay` by `1/100`
and drop the `id` column. -/
def preDates (f : Frame) : Except String Frame := do
  let f1 ← f.mapCol "net_amount_stay" cellDiv100
  f1.dropCol "id"

/-- Step 3 of `preprocess_df`: parse the three date columns with
`pd.to_datetime(..., dayfirst=True)`. -/
def parseDates (f : Frame) : Except String Frame := do
  let f1 ← f.mapCol "booking_date" cellParseDate
  let f2 ← f1.mapCol "check_in" cellParseDate
  f2.mapCol "check_out" cellParseDate

/-- The derived-column assignments of `preprocess_df`, in source
order, as label/row-expression pairs. -/
def deriveSpecs : List (String × (Frame → Row → Option Cell)) :=
  [("lead_days", rowDiffDays "check_in" "booking_date"),
   ("booking_day", rowDatePart "booking_date" (fun d => Cell.num (PFloat.fin (d.day : ℚ)))),
   ("booking_month", rowDatePart "booking_date" (fun d => Cell.num (PFloat.fin (d.month : ℚ)))),
   ("booking_year", rowDatePart "booking_date" (fun d => Cell.num (PFloat.fin (d.year : ℚ)))),
   ("check_in_day", rowDatePart "check_in" (fun d => Cell.num (PFloat.fin (d.day : ℚ)))),
   ("check_in_month", rowDatePart "check_in" (fun d => Cell.num (PFloat.fin (d.month : ℚ)))),
   ("check_in_year", rowDatePart "check_in" (fun d => Cell.num (PFloat.fin (d.year : ℚ)))),
   ("check_in_weekday", rowDatePart "check_in" (fun d => Cell.str (dayName d))),
   ("check_out_day", rowDatePart "check_out" (fun d => Cell.num (PFloat.fin (d.day : ℚ)))),
   ("check_out_month", rowDatePart "check_out" (fun d => Cell.num (PFloat.fin (d.month : ℚ)))),
   ("check_out_year", rowDatePart "check_out" (fun d => Cell.num (PFloat.fin (d.year : ℚ)))),
   ("stay_days", rowDiffDays "check_out" "check_in"),
   ("price_per_night", rowDivide "net_amount_stay" "stay_days")]

/-- Run a chain of derived-column assignments in order. -/
def chainDerive (f : Frame) :
    List (String × (Frame → Row → Option Cell)) → Except String Frame
  | [] => Except.ok f
  | (n, g) :: rest => (f.deriveCol n g).bind (fun f1 => chainDerive f1 rest)

/-- Steps 4–6 of `preprocess_df`: all derived columns up to
`price_per_night`. -/
def deriveAll (f : Frame) : Except String Frame :=
  chainDerive f deriveSpecs

/-- The `no_net` loop of `preprocess_df`: for each row, look at the
cell at column position 5 (`main_df.iloc[i, 5]`), record `0` when it
equals zero and `1` otherwise, and assign the list as the
`net_amount_avail` column. -/
def availStep (f : Frame) : Except String Frame :=
  match mapOpt (fun r => (r[5]?).map (fun c =>
      if cellEqZero c then Cell.num (PFloat.fin 0) else Cell.num (PFloat.fin 1)))
    f.rows with
  | none => Except.error "IndexError: iloc 5"
  | some vals => Except.ok (f.setColVals "net_amount_avail" vals)

/-- The `is_confirmed` normalization:
`main_df['is_confirmed'].replace({'t': True, 'f': False})`. -/
def confirmStep (f : Frame) : Except String Frame :=
  f.mapCol "is_confirmed" (fun c => some (replaceTF c))

/-- The row-retention predicate of the final `.loc` filter:
`lead_days >= 0 AND net_amount_avail == 1 AND price_per_night <= 18000000`. -/
def keepRow (f : Frame) (r : Row) : Bool :=
  cellGe0 ((rowGet f "lead_days" r).getD Cell.null) &&
  cellEqOne ((rowGet f "net_amount_avail" r).getD Cell.null) &&
  cellLe18M ((rowGet f "price_per_night" r).getD Cell.null)

/-- The final `.loc` row filter of `preprocess_df`. -/
def filterStep (f : Frame) : Frame :=
  ⟨f.cols, f.rows.filter (fun r => keepRow f r)⟩

/-- `preprocess_df` up to (but excluding) the final row filter. -/
def preprocessNoFilter (f : Frame) : Except String Frame := do
  let f1 ← preDates f
  let f2 ← parseDates f1
  let f3 ← deriveAll f2
  let f4 ← availStep f3
  confirmStep f4

/-- The full `preprocess_df` transform. -/
def preprocess_df (f : Frame) : Except String Frame := do
  let g ← preprocessNoFilter f
  pure (filterStep g)

/-- The derived-column labels appended by `preprocess_df`, in
assignment order. -/
def derivedNames : List String :=
  ["lead_days", "booking_day", "booking_month", "booking_year",
   "check_in_day", "check_in_month", "check_in_year", "check_in_weekday",
   "check_out_day", "check_out_month", "check_out_year",
   "stay_days", "price_per_night", "net_amount_avail"]

/-- Pandas `DataFrame.empty` on a positional frame. -/
def Frame.isEmptyF (f : Frame) : Bool :=
  f.rows.isEmpty || f.cols.isEmpty

/-- `dfi["_source_api"] = url`, the provenance tag `main` attaches to a
non-empty per-source frame before collecting it. -/
def addProv (url : String) (f : Frame) : Frame :=
  f.setColVals "_source_api" (f.rows.map (fun _ => Cell.str url))

/-- The per-source collection loop of `main`: a source whose fetch
errored is logged and skipped; a source whose frame is empty is
skipped; otherwise the frame is tagged with its provenance and kept. -/
def collectFrames (sources : List (String × Except String Frame)) : List Frame :=
  sources.filterMap (fun p => match p.2 with
    | Except.error _ => none
    | Except.ok dfi => if dfi.isEmptyF then none else some (addProv p.1 dfi))

/-- Column union of a list of frames in first-appearance order, as
`pd.concat(..., sort=False)` builds it. -/
def unionCols (fs : List Frame) : List String :=
  ((fs.map Frame.cols).flatten).dedup

/-- Reindex one row of a frame to a larger column list, filling absent
cells with null. -/
def reindexRow (f : Frame) (cols : List String) (r : Row) : Row :=
  cols.map (fun c => (rowGet f c r).getD Cell.null)

/-- `pd.concat(dfs, ignore_index=True, sort=False)`. -/
def concatFrames (fs : List Frame) : Frame :=
  let cs := unionCols fs
  ⟨cs, (fs.map (fun f => f.rows.map (reindexRow f cs))).flatten⟩

/-- The aggregation stage of `main`: collect the usable per-source
frames; exit with an error when none remain, else concatenate. -/
def mainAggregate (sources : List (String × Except String Frame)) :
    Except String Frame :=
  match collectFrames sources with
  | [] => Except.error "No data to process"
  | dfs => Except.ok (concatFrames dfs)

/-- A valid combined-table row matching the spec's worked example:
`net_amount_stay=150000`, booking 2024-01-10, check-in 2024-01-15,
check-out 2024-01-18 (`lead_days=5`, `stay_days=3`), with the
provenance column the reader appended before the transform. -/
def cf6 : Frame :=
  ⟨["id", "booking_date", "check_in", "check_out", "is_confirmed",
    "net_amount_stay", "_source_file"],
   [[Cell.num (PFloat.fin 1), Cell.str "10/01/2024", Cell.str "15/01/2024",
     Cell.str "18/01/2024", Cell.str "t", Cell.num (PFloat.fin 150000),
     Cell.str "a.json"]]⟩

/-- The frame `preprocess_df` produces from `cf6`. -/
def cf6out : Frame :=
  (preprocess_df cf6).toOption.getD ⟨[], []⟩

/-- A combined-table row whose `net_amount_stay` is zero but whose
column at position 5 after the `id` drop is the provenance string. -/
def cf2 : Frame :=
  ⟨["id", "booking_date", "check_in", "check_out", "is_confirmed",
    "net_amount_stay", "_source_file"],
   [[Cell.num (PFloat.fin 2), Cell.str "01/01/2024", Cell.str "05/01/2024",
     Cell.str "07/01/2024", Cell.str "t", Cell.num (PFloat.fin 0),
     Cell.str "b.json"]]⟩

/-- A combined-table row whose `is_confirmed` value is the token
`"true"`, which the `replace` mapping does not recognize. -/
def cf3 : Frame :=
  ⟨["id", "booking_date", "check_in", "check_out", "is_confirmed",
    "net_amount_stay", "_source_file"],
   [[Cell.num (PFloat.fin 3), Cell.str "01/01/2024", Cell.str "05/01/2024",
     Cell.str "07/01/2024", Cell.str "true", Cell.num (PFloat.fin 10000),
     Cell.str "c.json"]]⟩

/-- A combined-table row whose `booking_date` string `31/02/2024` is
unparseable under both the day-first and the month-first reading. -/
def cf7 : Frame :=
  ⟨["id", "booking_date", "check_in", "check_out", "is_confirmed",
    "net_amount_stay", "_source_file"],
   [[Cell.num (PFloat.fin 4), Cell.str "31/02/2024", Cell.str "05/01/2024",
     Cell.str "07/01/2024", Cell.str "t", Cell.num (PFloat.fin 10000),
     Cell.str "d.json"]]⟩

/-- The frame after the scale and drop steps on `cf7`. -/
def cf7mid : Frame :=
  (preDates cf7).toOption.getD ⟨[], []⟩

/-- A zero-stay row (`check_out = check_in`) with negative
`net_amount_stay`. -/
def cf10n : Frame :=
  ⟨["id", "booking_date", "check_in", "check_out", "is_confirmed",
    "net_amount_stay", "_source_file"],
   [[Cell.num (PFloat.fin 5), Cell.str "01/01/2024", Cell.str "05/01/2024",
     Cell.str "05/01/2024", Cell.str "t", Cell.num (PFloat.fin (-100)),
     Cell.str "e.json"]]⟩

/-- A zero-stay row (`check_out = check_in`) with positive
`net_amount_stay`. -/
def cf10p : Frame :=
  ⟨["id", "booking_date", "check_in", "check_out", "is_confirmed",
    "net_amount_stay", "_source_file"],
   [[Cell.num (PFloat.fin 6), Cell.str "01/01/2024", Cell.str "05/01/2024",
     Cell.str "05/01/2024", Cell.str "t", Cell.num (PFloat.fin 100),
     Cell.str "g.json"]]⟩

/-- The frame `preprocess_df` produces from `cf2`. -/
def cf2out : Frame :=
  (preprocess_df cf2).toOption.getD ⟨[], []⟩

/-- The frame `preprocess_df` produces from `cf3`. -/
def cf3out : Frame :=
  (preprocess_df cf3).toOption.getD ⟨[], []⟩

/-- The frame `preprocess_df` produces from `cf10n`. -/
def cf10nout : Frame :=
  (preprocess_df cf10n).toOption.getD ⟨[], []⟩

/-- The frame `preprocess_df` produces from `cf10p`. -/
def cf10pout : Frame :=
  (preprocess_df cf10p).toOption.getD ⟨[], []⟩

/-- The frame `preprocessNoFilter` produces from `cf10p`. -/
def cf10pmid : Frame :=
  (preprocessNoFilter cf10p).toOption.getD ⟨[], []⟩

/-- A one-column, one-row frame holding an unrecognized confirmation
token. -/
def cfC : Frame :=
  ⟨["is_confirmed"], [[Cell.str "x"]]⟩

/-- The single row of `cf7mid` (the `cf7` table after the scale and
drop steps). -/
def cf7row : Row :=
  [Cell.str "31/02/2024", Cell.str "05/01/2024", Cell.str "07/01/2024",
   Cell.str "t", Cell.num (PFloat.fin 100), Cell.str "d.json"]

theorem qdiv_eq_div (a b : ℚ) : qdiv a b = a / b := by
  unfold qdiv
  by_cases hb : b.num = 0
  · have hb0 : b = 0 := Rat.num_eq_zero.mp hb
    subst hb0
    simp [Rat.mkRat_eq_div]
  · have key : ((a.num * (b.den : Int) : Int) : ℚ) /
        (((a.den : Int) * b.num : Int) : ℚ) = a / b := by
      have had : ((a.den : ℚ)) ≠ 0 := by exact_mod_cast a.den_nz
      have hbd : ((b.den : ℚ)) ≠ 0 := by exact_mod_cast b.den_nz
      have hbn : ((b.num : ℚ)) ≠ 0 := by exact_mod_cast hb
      conv_rhs => rw [← Rat.num_div_den a, ← Rat.num_div_den b]
      push_cast
      field_simp
    by_cases hd : ((a.den : Int) * b.num) < 0
    · rw [if_pos hd, Rat.mkRat_eq_div]
      have h1 : (0 : Int) ≤ -((a.den : Int) * b.num) := by omega
      have h2 : (((-((a.den : Int) * b.num)).toNat : Int) : ℚ) =
          ((-((a.den : Int) * b.num) : Int) : ℚ) := by
        rw [Int.toNat_of_nonneg h1]
      rw [show (((-((a.den : Int) * b.num)).toNat : Nat) : ℚ) =
          ((-((a.den : Int) * b.num) : Int) : ℚ) from by exact_mod_cast h2]
      push_cast
      rw [neg_div_neg_eq]
      exact_mod_cast key
    · rw [if_neg hd, Rat.mkRat_eq_div]
      have h1 : (0 : Int) ≤ ((a.den : Int) * b.num) := by omega
      have h2 : ((((a.den : Int) * b.num).toNat : Int) : ℚ) =
          (((a.den : Int) * b.num : Int) : ℚ) := by
        rw [Int.toNat_of_nonneg h1]
      rw [show ((((a.den : Int) * b.num).toNat : Nat) : ℚ) =
          (((a.den : Int) * b.num : Int) : ℚ) from by exact_mod_cast h2]
      exact_mod_cast key

theorem exceptBind_ok {α β : Type} {x : Except String α} {g : α → Except String β}
    {b : β} : (x >>= g) = Except.ok b ↔ ∃ a, x = Except.ok a ∧ g a = Except.ok b := by
  cases x with
  | error e => simp [Bind.bind, Except.bind]
  | ok a => simp [Bind.bind, Except.bind]

theorem mapOpt_eq_none_of_mem {α β : Type} {g : α → Option β} {l : List α} {a : α}
    (ha : a ∈ l) (hg : g a = none) : mapOpt g l = none := by
  induction l with
  | nil => cases ha
  | cons x xs ih =>
    rcases List.mem_cons.mp ha with h | h
    · subst h; simp [mapOpt, hg]
    · cases hgx : g x <;> simp [mapOpt, hgx, ih h]

theorem mapOpt_eq_map {α β : Type} {g : α → Option β} {gt : α → β} :
    ∀ {l : List α}, (∀ a ∈ l, g a = some (gt a)) → mapOpt g l = some (l.map gt) := by
  intro l
  induction l with
  | nil => intro _; rfl
  | cons x xs ih =>
    intro h
    simp [mapOpt, h x (by simp), ih (fun a ha => h a (by simp [ha]))]

theorem colIdx_eq_none_iff (cols : List String) (name : String) :
    colIdx cols name = none ↔ name ∉ cols := by
  induction cols with
  | nil => simp [colIdx]
  | cons c rest ih =>
    simp only [colIdx]
    by_cases hc : c = name
    · subst hc; simp
    · simp [hc, Option.map_eq_none', ih, List.mem_cons, Ne.symm hc]

theorem mem_of_mem_eraseCol {a : String} : ∀ {l : List String} {n : String},
    a ∈ eraseCol l n → a ∈ l := by
  intro l
  induction l with
  | nil => intro n h; simp [eraseCol] at h
  | cons c rest ih =>
    intro n h
    simp only [eraseCol] at h
    by_cases hc : c = n
    · simp [hc] at h; simp [h]
    · simp [hc, List.mem_cons] at h
      rcases h with h | h
      · simp [h]
      · simp [ih h]

theorem not_mem_eraseCol {l : List String} {name : String} (h : l.Nodup) :
    name ∉ eraseCol l name := by
  induction l with
  | nil => simp [eraseCol]
  | cons c rest ih =>
    rcases List.nodup_cons.mp h with ⟨hc, hr⟩
    simp only [eraseCol]
    by_cases hcn : c = name
    · subst hcn; simpa using hc
    · simp only [hcn, if_false, List.mem_cons]
      rintro (h1 | h1)
      · exact hcn h1.symm
      · exact ih hr h1

theorem mapCol_ok_cols {f : Frame} {name : String} {g : Cell → Option Cell}
    {g' : Frame} (h : Frame.mapCol f name g = Except.ok g') : g'.cols = f.cols := by
  unfold Frame.mapCol at h
  split at h
  · simp at h
  · split at h
    · simp at h
    · simp only [Except.ok.injEq] at h
      rw [← h]

theorem dropCol_ok_cols {f : Frame} {name : String} {g' : Frame}
    (h : Frame.dropCol f name = Except.ok g') : g'.cols = eraseCol f.cols name := by
  unfold Frame.dropCol at h
  split at h
  · simp at h
  · simp only [Except.ok.injEq] at h
    rw [← h]

theorem setColVals_cols_of_not_mem {f : Frame} {name : String} {vals : List Cell}
    (h : name ∉ f.cols) : (Frame.setColVals f name vals).cols = f.cols ++ [name] := by
  simp only [Frame.setColVals, (colIdx_eq_none_iff f.cols name).mpr h]

theorem deriveCol_ok_cols {f : Frame} {name : String}
    {g : Frame → Row → Option Cell} {g' : Frame} (hn : name ∉ f.cols)
    (h : Frame.deriveCol f name g = Except.ok g') : g'.cols = f.cols ++ [name] := by
  unfold Frame.deriveCol at h
  split at h
  · simp at h
  · simp only [Except.ok.injEq] at h
    rw [← h, setColVals_cols_of_not_mem hn]

theorem availStep_ok_cols {f : Frame} {g' : Frame}
    (hn : "net_amount_avail" ∉ f.cols) (h : availStep f = Except.ok g') :
    g'.cols = f.cols ++ ["net_amount_avail"] := by
  unfold availStep at h
  split at h
  · simp at h
  · simp only [Except.ok.injEq] at h
    rw [← h, setColVals_cols_of_not_mem hn]

theorem chainDerive_cols :
    ∀ (specs : List (String × (Frame → Row → Option Cell))) (f g : Frame),
    (∀ n ∈ specs.map Prod.fst, n ∉ f.cols) → (specs.map Prod.fst).Nodup →
    chainDerive f specs = Except.ok g → g.cols = f.cols ++ specs.map Prod.fst := by
  intro specs
  induction specs with
  | nil =>
    intro f g _ _ h
    simp only [chainDerive, Except.ok.injEq] at h
    rw [← h]; simp
  | cons p rest ih =>
    intro f g hfresh hnd h
    obtain ⟨n, gf⟩ := p
    simp only [chainDerive] at h
    cases hd : Frame.deriveCol f n gf with
    | error e => rw [hd] at h; simp [Except.bind] at h
    | ok f1 =>
      rw [hd] at h
      simp only [Except.bind] at h
      have hf1 : f1.cols = f.cols ++ [n] :=
        deriveCol_ok_cols (hfresh n (by simp)) hd
      have hnd1 : (n :: rest.map Prod.fst).Nodup := by simpa using hnd
      have hfresh1 : ∀ m ∈ rest.map Prod.fst, m ∉ f1.cols := by
        intro m hm
        rw [hf1]
        simp only [List.mem_append, List.mem_singleton]
        rintro (h1 | h1)
        · exact hfresh m (by simp [hm]) h1
        · subst h1
          exact (List.nodup_cons.mp hnd1).1 hm
      have hrest := ih f1 g hfresh1 (List.nodup_cons.mp hnd1).2 h
      rw [hrest, hf1]
      simp [List.append_assoc]

theorem preDates_cols {f f1 : Frame} (h : preDates f = Except.ok f1) :
    f1.cols = eraseCol f.cols "id" := by
  unfold preDates at h
  rw [exceptBind_ok] at h
  obtain ⟨fa, ha, hb⟩ := h
  rw [dropCol_ok_cols hb, mapCol_ok_cols ha]

theorem parseDates_cols {f f1 : Frame} (h : parseDates f = Except.ok f1) :
    f1.cols = f.cols := by
  unfold parseDates at h
  rw [exceptBind_ok] at h
  obtain ⟨fa, ha, h⟩ := h
  rw [exceptBind_ok] at h
  obtain ⟨fb, hb, hc⟩ := h
  rw [mapCol_ok_cols hc, mapCol_ok_cols hb, mapCol_ok_cols ha]

theorem preprocessNoFilter_cols {f g : Frame}
    (hok : preprocessNoFilter f = Except.ok g)
    (hfresh : ∀ n ∈ derivedNames, n ∉ f.cols) :
    g.cols = eraseCol f.cols "id" ++ derivedNames := by
  unfold preprocessNoFilter at hok
  rw [exceptBind_ok] at hok
  obtain ⟨f1, h1, hok⟩ := hok
  rw [exceptBind_ok] at hok
  obtain ⟨f2, h2, hok⟩ := hok
  rw [exceptBind_ok] at hok
  obtain ⟨f3, h3, hok⟩ := hok
  rw [exceptBind_ok] at hok
  obtain ⟨f4, h4, hok⟩ := hok
  have hc1 : f1.cols = eraseCol f.cols "id" := preDates_cols h1
  have hc2 : f2.cols = eraseCol f.cols "id" := by rw [parseDates_cols h2, hc1]
  have hnotin : ∀ n ∈ derivedNames, n ∉ eraseCol f.cols "id" := by
    intro n hn hmem
    exact hfresh n hn (mem_of_mem_eraseCol hmem)
  have hsub : ∀ n ∈ deriveSpecs.map Prod.fst, n ∈ derivedNames := by
    intro n hn
    have he : derivedNames = deriveSpecs.map Prod.fst ++ ["net_amount_avail"] := by rfl
    rw [he]
    exact List.mem_append_left _ hn
  have hc3 : f3.cols = eraseCol f.cols "id" ++ deriveSpecs.map Prod.fst := by
    have := chainDerive_cols deriveSpecs f2 f3
      (fun n hn => by rw [hc2]; exact hnotin n (hsub n hn)) (by decide) h3
    rw [this, hc2]
  have hnav : "net_amount_avail" ∉ f3.cols := by
    rw [hc3]
    simp only [List.mem_append]
    rintro (hmem | hmem)
    · exact hnotin "net_amount_avail" (by decide) hmem
    · revert hmem; decide
  have hc4 : f4.cols = f3.cols ++ ["net_amount_avail"] := availStep_ok_cols hnav h4
  have hc5 : g.cols = f4.cols := mapCol_ok_cols hok
  rw [hc5, hc4, hc3, List.append_assoc]
  rfl

theorem findRec_spec (vals : List Json) :
    findRecList vals = (match specFirstRecordList vals with
      | some (Json.arr ys) => some ys
      | _ => none) := by
  induction vals with
  | nil => rfl
  | cons v rest ih =>
    cases v with
    | arr ys =>
      cases ys with
      | nil => simpa [findRecList, specFirstRecordList, List.filterMap_cons,
          List.find?_cons] using ih
      | cons y t =>
        cases y <;>
          simpa [findRecList, specFirstRecordList, List.filterMap_cons,
            List.find?_cons] using ih
    | null => simpa [findRecList, specFirstRecordList, List.filterMap_cons] using ih
    | bool b => simpa [findRecList, specFirstRecordList, List.filterMap_cons] using ih
    | num n => simpa [findRecList, specFirstRecordList, List.filterMap_cons] using ih
    | str s => simpa [findRecList, specFirstRecordList, List.filterMap_cons] using ih
    | obj kvs => simpa [findRecList, specFirstRecordList, List.filterMap_cons] using ih

/-- C4: for every mapping, the normalizer flattens the first value (in
iteration order) that is a non-empty list whose first element is a
mapping — stated against the spec's direct value scan
`specFirstRecordList` — and wraps the whole mapping as a single record
when no such value exists; for the envelope `{"x": 1, "items": [{"a": 1}]}`
it selects `items` and ignores the scalar key. -/
theorem c4_envelope_scan (kvs : List (String × Json)) :
    normalize_json_to_df (Json.obj kvs) =
      (match specFirstRecordList (kvs.map Prod.snd) with
       | some (Json.arr ys) => ys.map recordOf
       | _ => [recordOf (Json.obj kvs)]) ∧
    normalize_json_to_df (Json.obj [("x", Json.num 1),
      ("items", Json.arr [Json.obj [("a", Json.num 1)]])]) =
      [[("a", Json.num 1)]] := by
  constructor
  · show (match findRecList (kvs.map Prod.snd) with
      | some ys => ys.map recordOf
      | none => [recordOf (Json.obj kvs)]) = _
    rw [findRec_spec]
    cases hs : specFirstRecordList (kvs.map Prod.snd) with
    | none => rfl
    | some v => cases v <;> rfl
  · rfl

/-- C5 counterexample: on the empty mapping `{}` the normalizer does
not return zero records — `pd.json_normalize([{}])` yields one record
with zero fields, so the fragment's length is 1, refuting the claim
that every scalar or empty structure yields zero records. -/
theorem c5_counterexample : ¬ (normalize_json_to_df (Json.obj [])).length = 0 := by
  decide

/-- C5 amended: scalars (and null) yield a fragment of zero records;
the empty mapping `{}` yields a single record with zero fields, i.e. a
frame with one index entry and zero columns; in every case the result
is empty in the pandas `DataFrame.empty` sense and no error is
raised. -/
theorem c5_empty_fragments :
    normalize_json_to_df (Json.num 42) = [] ∧
    normalize_json_to_df (Json.str "x") = [] ∧
    normalize_json_to_df (Json.bool true) = [] ∧
    normalize_json_to_df Json.null = [] ∧
    normalize_json_to_df (Json.obj []) = [[]] ∧
    fragIsEmpty (normalize_json_to_df (Json.obj [])) = true ∧
    fragIsEmpty (normalize_json_to_df (Json.num 42)) = true := by
  refine ⟨rfl, rfl, rfl, rfl, rfl, rfl, rfl⟩

/-- C2 (evaluation at the failing input): in `cf2` the row's
`net_amount_stay` is 0, yet `preprocess_df` computes
`net_amount_avail = 1` and keeps the row, because the `no_net` loop
inspects the cell at hard-coded column position 5 (`iloc[i, 5]`), which
in this table is the provenance string, not `net_amount_stay`. -/
theorem c2_positional_flag_eval :
    getColCells cf2 "net_amount_stay" = [some (Cell.num (PFloat.fin 0))] ∧
    preprocess_df cf2 = Except.ok cf2out ∧
    getColCells cf2out "net_amount_avail" = [some (Cell.num (PFloat.fin 1))] ∧
    cf2out.rows.length = 1 := by
  refine ⟨by decide, by rfl, by decide, by decide⟩

/-- C3 counterexample: a table whose `is_confirmed` value is the token
`"true"` is processed without any error — the run returns a table in
which the token survives unchanged — refuting the claim that any token
other than `"t"`/`"f"` raises a fatal SchemaError. -/
theorem c3_counterexample :
    preprocess_df cf3 = Except.ok cf3out ∧
    getColCells cf3out "is_confirmed" = [some (Cell.str "true")] := by
  refine ⟨by rfl, by decide⟩

/-- C3 amended: the `replace` normalization maps `"t"` to true and
`"f"` to false, leaves booleans unchanged, and leaves every other
token unchanged; it never raises, for any token. -/
theorem c3_token_passthrough (f : Frame) (i : Nat)
    (hi : colIdx f.cols "is_confirmed" = some i)
    (hlen : ∀ r ∈ f.rows, i < r.length) :
    confirmStep f = Except.ok ⟨f.cols, f.rows.map (fun r =>
      match r[i]? with
      | some c => r.set i (replaceTF c)
      | none => r)⟩ ∧
    replaceTF (Cell.str "t") = Cell.bool true ∧
    replaceTF (Cell.str "f") = Cell.bool false ∧
    (∀ b, replaceTF (Cell.bool b) = Cell.bool b) ∧
    replaceTF (Cell.str "true") = Cell.str "true" ∧
    replaceTF (Cell.num (PFloat.fin 1)) = Cell.num (PFloat.fin 1) := by
  refine ⟨?_, rfl, rfl, fun b => rfl, rfl, rfl⟩
  unfold confirmStep Frame.mapCol
  simp only [hi]
  have hmo := @mapOpt_eq_map Row Row
    (fun r => match r[i]? with
      | some c => (some (replaceTF c)).map (fun c2 => r.set i c2)
      | none => none)
    (fun r => match r[i]? with
      | some c => r.set i (replaceTF c)
      | none => r)
    f.rows ?_
  · rw [hmo]
  · intro r hr
    cases hg : r[i]? with
    | none =>
      exfalso
      have := hlen r hr
      have h2 := List.getElem?_eq_none_iff.mp hg
      omega
    | some c => simp [hg]

theorem collectFrames_cons_error (u0 : String) (e : String)
    (rest : List (String × Except String Frame)) :
    collectFrames ((u0, Except.error e) :: rest) = collectFrames rest := by
  simp [collectFrames, List.filterMap_cons]

theorem collectFrames_cons_ok (u0 : String) (dfi : Frame)
    (rest : List (String × Except String Frame)) :
    collectFrames ((u0, Except.ok dfi) :: rest) =
      if dfi.isEmptyF then collectFrames rest
      else addProv u0 dfi :: collectFrames rest := by
  by_cases hemp : dfi.isEmptyF
  · simp [collectFrames, List.filterMap_cons, hemp]
  · simp [collectFrames, List.filterMap_cons, hemp]

theorem collectFrames_eq_nil_iff (sources : List (String × Except String Frame)) :
    collectFrames sources = [] ↔
      ∀ u fr, (u, Except.ok fr) ∈ sources → fr.isEmptyF = true := by
  induction sources with
  | nil => simp [collectFrames]
  | cons p rest ih =>
    obtain ⟨u0, res⟩ := p
    cases res with
    | error e =>
      rw [collectFrames_cons_error, ih]
      constructor
      · intro h u fr hmem
        rcases List.mem_cons.mp hmem with h1 | h1
        · exact absurd (congrArg Prod.snd h1) (by simp)
        · exact h u fr h1
      · intro h u fr hmem
        exact h u fr (List.mem_cons_of_mem _ hmem)
    | ok dfi =>
      rw [collectFrames_cons_ok]
      by_cases hemp : dfi.isEmptyF = true
      · rw [if_pos hemp, ih]
        constructor
        · intro h u fr hmem
          rcases List.mem_cons.mp hmem with h1 | h1
          · have h2 : Except.ok fr = Except.ok dfi := congrArg Prod.snd h1
            injection h2 with h3
            rw [h3]
            exact hemp
          · exact h u fr h1
        · intro h u fr hmem
          exact h u fr (List.mem_cons_of_mem _ hmem)
      · rw [if_neg hemp]
        constructor
        · intro h
          exact absurd h (List.cons_ne_nil _ _)
        · intro h
          exact absurd (h u0 dfi (List.mem_cons_self _ _)) hemp

/-- C8: the aggregation stage of `main` fails if and only if no source
contributed a non-empty frame: a source whose fetch errored is skipped
(the run continues), a source whose frame is empty is skipped, and the
run errors exactly when nothing usable remains. -/
theorem c8_no_usable_data_iff (sources : List (String × Except String Frame)) :
    (∃ e, mainAggregate sources = Except.error e) ↔
      ∀ u fr, (u, Except.ok fr) ∈ sources → fr.isEmptyF = true := by
  rw [← collectFrames_eq_nil_iff]
  unfold mainAggregate
  cases hc : collectFrames sources with
  | nil => simp
  | cons a as => simp

theorem mapOpt_mem_some {α β : Type} {g : α → Option β} {l : List α} {bs : List β}
    (h : mapOpt g l = some bs) {a : α} (ha : a ∈ l) : ∃ b, g a = some b := by
  induction l generalizing bs with
  | nil => cases ha
  | cons x xs ih =>
    simp only [mapOpt] at h
    cases hgx : g x with
    | none => rw [hgx] at h; simp at h
    | some b =>
      rw [hgx] at h
      cases hmo : mapOpt g xs with
      | none => rw [hmo] at h; simp at h
      | some bs2 =>
        rw [hmo] at h
        rcases List.mem_cons.mp ha with h1 | h1
        · subst h1; exact ⟨b, hgx⟩
        · exact ih hmo h1

theorem keepRow_iff (h : Frame) (r : Row) :
    keepRow h r = true ↔
      (cellGe0 ((rowGet h "lead_days" r).getD Cell.null) = true ∧
       cellEqOne ((rowGet h "net_amount_avail" r).getD Cell.null) = true ∧
       cellLe18M ((rowGet h "price_per_night" r).getD Cell.null) = true) := by
  simp [keepRow, Bool.and_eq_true, and_assoc]

/-- C1: every row of the table `preprocess_df` returns satisfies
`lead_days >= 0`, `net_amount_avail == 1` and
`price_per_night <= 18_000_000`; a pre-filter row violating any of the
three conditions does not appear in the output, and every surviving row
is present verbatim (unaltered) among the pre-filter rows. -/
theorem c1_filter_invariant (f g : Frame) (hok : preprocess_df f = Except.ok g) :
    ∃ h, preprocessNoFilter f = Except.ok h ∧ g.cols = h.cols ∧
      (∀ r ∈ g.rows,
        (cellGe0 ((rowGet h "lead_days" r).getD Cell.null) = true ∧
         cellEqOne ((rowGet h "net_amount_avail" r).getD Cell.null) = true ∧
         cellLe18M ((rowGet h "price_per_night" r).getD Cell.null) = true) ∧
        r ∈ h.rows) ∧
      (∀ r ∈ h.rows,
        ¬(cellGe0 ((rowGet h "lead_days" r).getD Cell.null) = true ∧
          cellEqOne ((rowGet h "net_amount_avail" r).getD Cell.null) = true ∧
          cellLe18M ((rowGet h "price_per_night" r).getD Cell.null) = true) →
        r ∉ g.rows) := by
  unfold preprocess_df at hok
  rw [exceptBind_ok] at hok
  obtain ⟨h, hh, hg⟩ := hok
  have hfil : filterStep h = g := by simpa [Pure.pure, Except.pure] using hg
  refine ⟨h, hh, ?_, ?_, ?_⟩
  · rw [← hfil]; rfl
  · intro r hr
    rw [← hfil] at hr
    have hr2 : r ∈ h.rows ∧ keepRow h r = true := by
      simpa [filterStep] using List.mem_filter.mp (by simpa [filterStep] using hr)
    exact ⟨(keepRow_iff h r).mp hr2.2, hr2.1⟩
  · intro r _ hcond hrg
    rw [← hfil] at hrg
    have hk : keepRow h r = true :=
      (List.mem_filter.mp (by simpa [filterStep] using hrg)).2
    exact hcond ((keepRow_iff h r).mp hk)

/-- C1 witness: the filter invariant instantiated at the concrete
table `cf6`. -/
theorem c1_witness :
    preprocess_df cf6 = Except.ok cf6out ∧
    (∃ h, preprocessNoFilter cf6 = Except.ok h ∧ cf6out.cols = h.cols ∧
      (∀ r ∈ cf6out.rows,
        (cellGe0 ((rowGet h "lead_days" r).getD Cell.null) = true ∧
         cellEqOne ((rowGet h "net_amount_avail" r).getD Cell.null) = true ∧
         cellLe18M ((rowGet h "price_per_night" r).getD Cell.null) = true) ∧
        r ∈ h.rows) ∧
      (∀ r ∈ h.rows,
        ¬(cellGe0 ((rowGet h "lead_days" r).getD Cell.null) = true ∧
          cellEqOne ((rowGet h "net_amount_avail" r).getD Cell.null) = true ∧
          cellLe18M ((rowGet h "price_per_night" r).getD Cell.null) = true) →
        r ∉ cf6out.rows)) :=
  ⟨by rfl, c1_filter_invariant cf6 cf6out (by rfl)⟩

/-- C6: `preprocess_df` drops the `id` column entirely, divides each
`net_amount_stay` cell by 100, and on the spec's worked example
(`net_amount_stay=150000`, booking 10/01/2024, check-in 15/01/2024,
check-out 18/01/2024) produces post-scale `net_amount_stay = 1500`,
`lead_days = 5`, `stay_days = 3` and `price_per_night = 500`; the
day-difference used for `lead_days` may be negative. -/
theorem c6_scaling_and_derivation (f g : Frame)
    (hok : preprocess_df f = Except.ok g) (hnd : f.cols.Nodup)
    (hfresh : ∀ n ∈ derivedNames, n ∉ f.cols) :
    "id" ∉ g.cols ∧
    (∀ q : ℚ, cellDiv100 (Cell.num (PFloat.fin q)) =
      some (Cell.num (PFloat.fin (q / 100)))) ∧
    toSerial ⟨5, 1, 2024⟩ - toSerial ⟨10, 1, 2024⟩ = -5 ∧
    preprocess_df cf6 = Except.ok cf6out ∧
    getColCells cf6out "net_amount_stay" = [some (Cell.num (PFloat.fin 1500))] ∧
    getColCells cf6out "price_per_night" = [some (Cell.num (PFloat.fin 500))] ∧
    getColCells cf6out "stay_days" = [some (Cell.num (PFloat.fin 3))] ∧
    getColCells cf6out "lead_days" = [some (Cell.num (PFloat.fin 5))] := by
  refine ⟨?_, ?_, by decide, by rfl, by decide, by decide, by decide, by decide⟩
  · unfold preprocess_df at hok
    rw [exceptBind_ok] at hok
    obtain ⟨h, hh, hg⟩ := hok
    have hfil : filterStep h = g := by simpa [Pure.pure, Except.pure] using hg
    have hcols := preprocessNoFilter_cols hh hfresh
    rw [← hfil]
    show "id" ∉ h.cols
    rw [hcols]
    simp only [List.mem_append]
    rintro (hmem | hmem)
    · exact not_mem_eraseCol hnd hmem
    · revert hmem; decide
  · intro q
    have h100 : (100 : ℚ) ≠ 0 := by norm_num
    simp [cellDiv100, PFloat.div, h100, qdiv_eq_div]

/-- C6 witness: the scaling/derivation theorem instantiated at the
concrete table `cf6`. -/
theorem c6_witness :
    preprocess_df cf6 = Except.ok cf6out ∧ cf6.cols.Nodup ∧
    (∀ n ∈ derivedNames, n ∉ cf6.cols) ∧
    ("id" ∉ cf6out.cols ∧
     (∀ q : ℚ, cellDiv100 (Cell.num (PFloat.fin q)) =
       some (Cell.num (PFloat.fin (q / 100)))) ∧
     toSerial ⟨5, 1, 2024⟩ - toSerial ⟨10, 1, 2024⟩ = -5 ∧
     preprocess_df cf6 = Except.ok cf6out ∧
     getColCells cf6out "net_amount_stay" = [some (Cell.num (PFloat.fin 1500))] ∧
     getColCells cf6out "price_per_night" = [some (Cell.num (PFloat.fin 500))] ∧
     getColCells cf6out "stay_days" = [some (Cell.num (PFloat.fin 3))] ∧
     getColCells cf6out "lead_days" = [some (Cell.num (PFloat.fin 5))]) :=
  ⟨by rfl, by decide, by decide,
   c6_scaling_and_derivation cf6 cf6out (by rfl) (by decide) (by decide)⟩

/-- C7: the date columns are parsed day-first — a triple that is valid
read day-first parses as day/month/year even when the month-first
reading is also valid (e.g. `05/03/2024` parses as 5 March 2024) — and
a table containing a row whose `booking_date` cannot be parsed makes
the whole `preprocess_df` run fail with an error rather than skipping
the row. -/
theorem c7_dayfirst_fatal (f f2 : Frame) (h1 : preDates f = Except.ok f2)
    (h2 : ∃ r ∈ f2.rows, ∃ s, rowGet f2 "booking_date" r = some (Cell.str s) ∧
      parseDateDayfirst s = none) :
    (∃ e, preprocess_df f = Except.error e) ∧
    (∀ a b c : Nat, validDMY a b c = true → parseTriple a b c = some ⟨a, b, c⟩) ∧
    parseDateDayfirst "05/03/2024" = some ⟨5, 3, 2024⟩ ∧
    validDMY 5 3 2024 = true ∧ validDMY 3 5 2024 = true := by
  refine ⟨?_, ?_, by decide, by decide, by decide⟩
  · obtain ⟨r, hr, s, hget, hparse⟩ := h2
    unfold rowGet at hget
    cases hci : colIdx f2.cols "booking_date" with
    | none => simp [hci] at hget
    | some i =>
      simp only [hci] at hget
      cases hmcv : f2.mapCol "booking_date" cellParseDate with
      | ok out =>
        exfalso
        unfold Frame.mapCol at hmcv
        simp only [hci] at hmcv
        split at hmcv
        · exact Except.noConfusion hmcv
        · rename_i rs heq
          obtain ⟨b, hb⟩ := mapOpt_mem_some heq hr
          rw [hget] at hb
          simp [cellParseDate, hparse] at hb
      | error e0 =>
        refine ⟨e0, ?_⟩
        simp [preprocess_df, preprocessNoFilter, parseDates, h1, hmcv,
          Bind.bind, Except.bind]
  · intro a b c hv
    simp [parseTriple, hv]

/-- C7 witness: the day-first/fatal-parse theorem instantiated at the
concrete table `cf7`, whose `booking_date` string `31/02/2024` parses
under neither reading. -/
theorem c7_witness :
    preDates cf7 = Except.ok cf7mid ∧
    (∃ r ∈ cf7mid.rows, ∃ s, rowGet cf7mid "booking_date" r = some (Cell.str s) ∧
      parseDateDayfirst s = none) ∧
    ((∃ e, preprocess_df cf7 = Except.error e) ∧
     (∀ a b c : Nat, validDMY a b c = true → parseTriple a b c = some ⟨a, b, c⟩) ∧
     parseDateDayfirst "05/03/2024" = some ⟨5, 3, 2024⟩ ∧
     validDMY 5 3 2024 = true ∧ validDMY 3 5 2024 = true) :=
  ⟨by rfl, ⟨cf7row, by decide, "31/02/2024", by decide, by decide⟩,
   c7_dayfirst_fatal cf7 cf7mid (by rfl)
     ⟨cf7row, by decide, "31/02/2024", by decide, by decide⟩⟩

/-- C9 counterexample: on `cf6` the returned column order places the
provenance column `_source_file` directly after the raw columns and
before all derived columns, not last as the claim states. -/
theorem c9_counterexample :
    preprocess_df cf6 = Except.ok cf6out ∧
    cf6out.cols =
      ["booking_date", "check_in", "check_out", "is_confirmed", "net_amount_stay",
       "_source_file", "lead_days", "booking_day", "booking_month", "booking_year",
       "check_in_day", "check_in_month", "check_in_year", "check_in_weekday",
       "check_out_day", "check_out_month", "check_out_year", "stay_days",
       "price_per_night", "net_amount_avail"] ∧
    cf6out.cols ≠
      ["booking_date", "check_in", "check_out", "is_confirmed", "net_amount_stay",
       "lead_days", "booking_day", "booking_month", "booking_year",
       "check_in_day", "check_in_month", "check_in_year", "check_in_weekday",
       "check_out_day", "check_out_month", "check_out_year", "stay_days",
       "price_per_night", "net_amount_avail", "_source_file"] := by
  refine ⟨by rfl, by decide, by decide⟩

/-- C9 amended: the returned column order is the input columns (which
already include the provenance column the reader appended) with `id`
removed, in their original order, followed by the derived columns in
the order lead_days, booking_day/month/year, check_in_day/month/year,
check_in_weekday, check_out_day/month/year, stay_days,
price_per_night, net_amount_avail; the provenance column therefore
precedes the derived columns rather than coming last. -/
theorem c9_column_order (f g : Frame) (hok : preprocess_df f = Except.ok g)
    (hfresh : ∀ n ∈ derivedNames, n ∉ f.cols) :
    g.cols = eraseCol f.cols "id" ++ derivedNames := by
  unfold preprocess_df at hok
  rw [exceptBind_ok] at hok
  obtain ⟨h, hh, hg⟩ := hok
  have hfil : filterStep h = g := by simpa [Pure.pure, Except.pure] using hg
  rw [← hfil]
  show h.cols = _
  exact preprocessNoFilter_cols hh hfresh

/-- C9 witness: the amended column-order theorem instantiated at the
concrete table `cf6`. -/
theorem c9_witness :
    preprocess_df cf6 = Except.ok cf6out ∧
    (∀ n ∈ derivedNames, n ∉ cf6.cols) ∧
    cf6out.cols = eraseCol cf6.cols "id" ++ derivedNames :=
  ⟨by rfl, by decide, c9_column_order cf6 cf6out (by rfl) (by decide)⟩

/-- C10 counterexample: a zero-stay row (`check_out = check_in`) with
negative `net_amount_stay` gets `price_per_night = -inf`, which
satisfies the `<= 18_000_000` filter, so the row appears in the
output — refuting the claim that a zero-stay row never survives. -/
theorem c10_counterexample :
    preprocess_df cf10n = Except.ok cf10nout ∧
    cf10nout.rows.length = 1 ∧
    getColCells cf10nout "stay_days" = [some (Cell.num (PFloat.fin 0))] ∧
    getColCells cf10nout "price_per_night" = [some (Cell.num PFloat.ninf)] := by
  refine ⟨by rfl, by decide, by decide, by decide⟩

/-- C10 amended: dividing a finite value by zero never raises and
never produces a finite value (it gives +inf, -inf or NaN); the price
filter rejects +inf and NaN but accepts -inf; hence a zero-stay row
with positive scaled `net_amount_stay` (price +inf) is excluded from
the output without any error, while a negative one can survive. -/
theorem c10_nonfinite_policy :
    (∀ q : ℚ, PFloat.isFinite (PFloat.div (PFloat.fin q) (PFloat.fin 0)) = false) ∧
    cellLe18M (Cell.num PFloat.pinf) = false ∧
    cellLe18M (Cell.num PFloat.nan) = false ∧
    cellLe18M (Cell.num PFloat.ninf) = true ∧
    preprocessNoFilter cf10p = Except.ok cf10pmid ∧
    getColCells cf10pmid "price_per_night" = [some (Cell.num PFloat.pinf)] ∧
    preprocess_df cf10p = Except.ok cf10pout ∧
    cf10pout.rows.length = 0 := by
  refine ⟨?_, by decide, by decide, by decide, by rfl, by decide, by rfl, by decide⟩
  intro q
  by_cases h0 : 0 < q
  · simp [PFloat.div, h0, PFloat.isFinite]
  · by_cases h1 : q < 0
    · simp [PFloat.div, h0, h1, PFloat.isFinite]
    · simp [PFloat.div, h0, h1, PFloat.isFinite]

/-- C3 witness: the token-passthrough theorem instantiated at the
one-column table `cfC` holding the unrecognized token `"x"`. -/
theorem c3_witness :
    colIdx cfC.cols "is_confirmed" = some 0 ∧
    (∀ r ∈ cfC.rows, 0 < r.length) ∧
    (confirmStep cfC = Except.ok ⟨cfC.cols, cfC.rows.map (fun r =>
      match r[0]? with
      | some c => r.set 0 (replaceTF c)
      | none => r)⟩ ∧
     replaceTF (Cell.str "t") = Cell.bool true ∧
     replaceTF (Cell.str "f") = Cell.bool false ∧
     (∀ b, replaceTF (Cell.bool b) = Cell.bool b) ∧
     replaceTF (Cell.str "true") = Cell.str "true" ∧
     replaceTF (Cell.num (PFloat.fin 1)) = Cell.num (PFloat.fin 1)) :=
  ⟨by rfl, by decide, c3_token_passthrough cfC 0 (by rfl) (by decide)⟩

end DashPrep
